import Mathlib

/-!
Verification of the question-lifecycle core of the remAInd quiz-generation
application, shallowly embedded from the Python sources under `src/core/`.

Conventions of the embedding:
* Django model instances become Lean structures; nullable fields become `Option`.
* Stateful service methods become pure functions returning the updated state.
* Python `str` is modelled as Lean `String` (or `List Char` where per-character
  scanning is the essence of the source routine); `str.strip()` is modelled by
  trimming the whitespace characters that actually occur in this code base
  (space, tab, CR, LF).
* Code that can raise is modelled with `Except`.
* Floating-point quantities (`accuracy`, similarity ratios) are modelled as
  exact rationals; all concrete values appearing in the sources are small
  enough that the float and rational computations order identically.
-/

deriving instance DecidableEq for Except

namespace RemAInd

/-! ## Data model: `core/models.py` -/

/-- Model of `core.models.Question` (the fields touched by the answering lifecycle).
Nullable Django fields are `Option`s. -/
structure QuestionRec where
  question_text : String
  theme : String
  question_number : Nat
  correct_option : Option String
  is_correct : Option Bool
  is_correct_first : Option Bool
  explanation : Option String
  deriving Repr, DecidableEq

/-- Model of `core.models.CustomUser` (statistics and quota fields).
Dates are abstracted to integers (a date equality/inequality test is all the
code performs); `last_generated_date` is nullable. -/
structure UserState where
  is_premium : Bool
  correct_count : Nat
  generate_count : Nat
  accuracy : Option Rat
  last_generated_date : Option Int
  daily_generated_count : Nat
  deriving Repr, DecidableEq

/-! ## `core/services/answer_processing.py` : QuestionUpdateService -/

/-- One grading call's inputs: the computed correctness, and the
`correct_option` / `explanation_text` extracted from the LLM response. -/
structure GradeCall where
  isCorrect : Bool
  correctOption : Option String
  explanationText : String
  deriving Repr, DecidableEq

/-- Model of `QuestionUpdateService.update_question`.  If `is_correct_first` is unset
(`None`), this is the first attempt: set `is_correct_first`; otherwise set
`is_correct`.  Either way overwrite `correct_option` and `explanation`, and
return whether the first-attempt branch fired (`is_first`). -/
def update_question (q : QuestionRec) (c : GradeCall) : QuestionRec × Bool :=
  let (q1, isFirst) :=
    match q.is_correct_first with
    | none => ({ q with is_correct_first := some c.isCorrect }, true)
    | some _ => ({ q with is_correct := some c.isCorrect }, false)
  ({ q1 with correct_option := c.correctOption, explanation := some c.explanationText }, isFirst)

/-- Apply a sequence of grading calls in order; returns the final question
state together with the list of `is_first` flags returned by each call. -/
def applyGradeCalls : QuestionRec → List GradeCall → QuestionRec × List Bool
  | q, [] => (q, [])
  | q, c :: rest =>
    let (q1, f) := update_question q c
    let (qf, fs) := applyGradeCalls q1 rest
    (qf, f :: fs)

/-! ## `core/services/answer_processing.py` : UserStatisticsService -/

/-- Model of `UserStatisticsService.update_statistics`: on a first-attempt correct
answer increment `correct_count`; then (whenever `generate_count > 0`)
recompute `accuracy = correct_count / generate_count * 100`. -/
def update_statistics (u : UserState) (is_first is_corr : Bool) : UserState :=
  let u1 := if is_first && is_corr then { u with correct_count := u.correct_count + 1 } else u
  if 0 < u1.generate_count then
    { u1 with accuracy := some ((u1.correct_count : Rat) / (u1.generate_count : Rat) * 100) }
  else u1

/-! ## `core/services/question_generation.py` : PremiumLimitChecker -/

/-- Constant `PremiumLimitChecker.DAILY_LIMIT`. -/
def DAILY_LIMIT : Nat := 10

/-- Model of `PremiumLimitChecker.can_generate`.  Premium users pass untouched.
Otherwise, when the stored date differs from `today` the date is reset to
`today` and the counter to `0` (and saved); then the limit check runs on the
(possibly reset) counter.  Returns the saved user state, the boolean verdict,
and the optional error message. -/
def can_generate (u : UserState) (today : Int) : UserState × Bool × Option String :=
  if u.is_premium then (u, true, none)
  else
    let u1 :=
      if u.last_generated_date ≠ some today then
        { u with last_generated_date := some today, daily_generated_count := 0 }
      else u
    if DAILY_LIMIT ≤ u1.daily_generated_count then
      (u1, false, some "1日に生成できる問題数の上限に達しました。")
    else (u1, true, none)

/-- Model of `PremiumLimitChecker.update_daily_count`: add `question_count` to the
daily counter, for non-premium users only. -/
def update_daily_count (u : UserState) (question_count : Nat) : UserState :=
  if u.is_premium then u
  else { u with daily_generated_count := u.daily_generated_count + question_count }

/-! ## `core/services/answer_processing.py` : ExplanationContextBuilder -/

/-- The context dictionary built by `ExplanationContextBuilder.build_context`
(keys become fields). -/
structure ExplanationContext where
  question : String
  keyword : String
  question_number : Nat
  total_questions : Nat
  has_next : Bool
  next_number : Nat
  is_correct : Option Bool
  question_id : Nat
  explanation : Option String
  correct_option : Option String
  is_retry : String
  user_answer : String
  show_back_link : Bool
  show_user_answer : Bool
  show_images : Bool
  show_next_button : Bool
  deriving Repr, DecidableEq

/-- Model of `ExplanationContextBuilder.build_context`: correctness prefers
`is_correct_first` when set, else `is_correct`; the display flags are
hard-coded off; `total_questions = 1`, `has_next = False`. -/
def explanation_build_context (q : QuestionRec) (question_id : Nat) (keyword : String)
    (question_number : Nat) (is_retry : Bool) : ExplanationContext :=
  { question := q.question_text
    keyword := keyword
    question_number := question_number
    total_questions := 1
    has_next := false
    next_number := question_number + 1
    is_correct := match q.is_correct_first with
      | some b => some b
      | none => q.is_correct
    question_id := question_id
    explanation := q.explanation
    correct_option := q.correct_option
    is_retry := if is_retry then "True" else ""
    user_answer := ""
    show_back_link := false
    show_user_answer := false
    show_images := false
    show_next_button := false }

/-! ## Sample states used by concrete witnesses -/

/-- A freshly generated, never-graded question. -/
def freshQ : QuestionRec :=
  { question_text := "Pythonとは何か？", theme := "Python", question_number := 1,
    correct_option := none, is_correct := none, is_correct_first := none, explanation := none }

/-- A grading call judging the answer correct. -/
def callT : GradeCall := { isCorrect := true, correctOption := some "A", explanationText := "解説1" }

/-- A grading call judging the answer incorrect. -/
def callF : GradeCall := { isCorrect := false, correctOption := some "B", explanationText := "解説2" }

/-- Helper: once `is_correct_first` is set to `some b`, every further grading
call leaves it at `some b`, reports `is_first = false`, and rewrites
`is_correct` to the call's verdict (so the final `is_correct` is the last
call's verdict, or the starting value when no calls happen). -/
theorem applyGradeCalls_after_set (b : Bool) :
    ∀ (calls : List GradeCall) (q : QuestionRec), q.is_correct_first = some b →
    (applyGradeCalls q calls).1.is_correct_first = some b ∧
    (applyGradeCalls q calls).2 = calls.map (fun _ => false) ∧
    (applyGradeCalls q calls).1.is_correct =
      (calls.map (fun c => some c.isCorrect)).getLastD q.is_correct := by
  intro calls
  induction calls with
  | nil =>
    intro q h
    exact ⟨h, rfl, rfl⟩
  | cons c rest ih =>
    intro q h
    have hq1 : update_question q c =
        ({ q with is_correct := some c.isCorrect, correct_option := c.correctOption,
                  explanation := some c.explanationText }, false) := by
      simp [update_question, h]
    have ih' := ih { q with is_correct := some c.isCorrect, correct_option := c.correctOption,
                            explanation := some c.explanationText } h
    refine ⟨?_, ?_, ?_⟩
    · simp [applyGradeCalls, hq1, ih'.1]
    · simp [applyGradeCalls, hq1, ih'.2.1]
    · simp only [applyGradeCalls, hq1, List.map_cons, List.getLastD_cons]
      simpa using ih'.2.2

/-- C1: for a question whose `is_correct_first` is unset, the first grading
call sets `is_correct_first` to its verdict, leaves `is_correct` alone and
returns `is_first = true`; every later call in any subsequent sequence returns
`is_first = false`, leaves `is_correct_first` exactly as the first call set
it, and writes `is_correct` (so it ends at the last later call's verdict). -/
theorem is_correct_first_write_once (q : QuestionRec) (c : GradeCall) (rest : List GradeCall)
    (h : q.is_correct_first = none) :
    (update_question q c).2 = true ∧
    (update_question q c).1.is_correct_first = some c.isCorrect ∧
    (update_question q c).1.is_correct = q.is_correct ∧
    (applyGradeCalls (update_question q c).1 rest).2 = rest.map (fun _ => false) ∧
    (applyGradeCalls (update_question q c).1 rest).1.is_correct_first = some c.isCorrect ∧
    (applyGradeCalls (update_question q c).1 rest).1.is_correct =
      (rest.map (fun cc => some cc.isCorrect)).getLastD q.is_correct := by
  have hq1 : update_question q c =
      ({ q with is_correct_first := some c.isCorrect, correct_option := c.correctOption,
                explanation := some c.explanationText }, true) := by
    simp [update_question, h]
  have hset := applyGradeCalls_after_set c.isCorrect rest
    { q with is_correct_first := some c.isCorrect, correct_option := c.correctOption,
             explanation := some c.explanationText } rfl
  refine ⟨?_, ?_, ?_, ?_, ?_, ?_⟩ <;>
    simp [hq1, hset.1, hset.2.1, hset.2.2]

/-- Witness for C1 on a concrete fresh question graded twice. -/
theorem is_correct_first_write_once_witness :
    (update_question freshQ callT).2 = true ∧
    (update_question freshQ callT).1.is_correct_first = some true ∧
    (update_question freshQ callT).1.is_correct = none ∧
    (applyGradeCalls (update_question freshQ callT).1 [callF]).2 = [false] ∧
    (applyGradeCalls (update_question freshQ callT).1 [callF]).1.is_correct_first = some true ∧
    (applyGradeCalls (update_question freshQ callT).1 [callF]).1.is_correct = some false := by
  have h := is_correct_first_write_once freshQ callT [callF] rfl
  refine ⟨h.1, ?_, ?_, ?_, ?_, ?_⟩
  · simpa [callT] using h.2.1
  · simpa [freshQ] using h.2.2.1
  · simpa using h.2.2.2.1
  · simpa [callT] using h.2.2.2.2.1
  · simpa [callF, freshQ] using h.2.2.2.2.2

/-- C10: every grading call — first attempt and retry alike — overwrites
`correct_option` and `explanation` with that call's extracted values, and a
second call on the result again overwrites both with its own values while
`is_correct_first` keeps whatever boolean it held before the second call. -/
theorem grading_overwrites_option_and_explanation (q : QuestionRec) (c : GradeCall) :
    (update_question q c).1.correct_option = c.correctOption ∧
    (update_question q c).1.explanation = some c.explanationText ∧
    (∀ b, q.is_correct_first = some b → (update_question q c).1.is_correct_first = some b) ∧
    (∀ c2 : GradeCall,
      (update_question (update_question q c).1 c2).1.correct_option = c2.correctOption ∧
      (update_question (update_question q c).1 c2).1.explanation = some c2.explanationText ∧
      (update_question (update_question q c).1 c2).1.is_correct_first =
        (update_question q c).1.is_correct_first) := by
  refine ⟨?_, ?_, ?_, ?_⟩
  · cases hf : q.is_correct_first <;> simp [update_question, hf]
  · cases hf : q.is_correct_first <;> simp [update_question, hf]
  · intro b hb; simp [update_question, hb]
  · intro c2
    cases hf : q.is_correct_first <;>
      simp [update_question, hf]

/-- Witness for C10: a retry on a concrete first-graded question replaces
`correct_option` and `explanation` while preserving `is_correct_first`. -/
theorem grading_overwrites_witness :
    (update_question (update_question freshQ callT).1 callF).1.correct_option = some "B" ∧
    (update_question (update_question freshQ callT).1 callF).1.explanation = some "解説2" ∧
    (update_question (update_question freshQ callT).1 callF).1.is_correct_first = some true := by
  have h := (grading_overwrites_option_and_explanation (update_question freshQ callT).1 callF).2.2.1
    true (by simp [update_question, freshQ, callT])
  have h2 := grading_overwrites_option_and_explanation (update_question freshQ callT).1 callF
  exact ⟨h2.1, h2.2.1, h⟩

/-! ## C4 : PremiumLimitChecker.can_generate -/

/-- C4: premium users pass with no state change; for non-premium users with a
stale stored date the reset to (today, 0) is in the saved state and the check
then passes; for non-premium users already on today's date nothing is written
and the check fails exactly when the counter has reached the daily limit. -/
theorem can_generate_quota_spec (u : UserState) (today : Int) :
    (u.is_premium = true → can_generate u today = (u, true, none)) ∧
    (u.is_premium = false → u.last_generated_date ≠ some today →
      (can_generate u today).1.last_generated_date = some today ∧
      (can_generate u today).1.daily_generated_count = 0 ∧
      (can_generate u today).2.1 = true) ∧
    (u.is_premium = false → u.last_generated_date = some today →
      (can_generate u today).1 = u ∧
      ((can_generate u today).2.1 = false ↔ 10 ≤ u.daily_generated_count)) := by
  refine ⟨?_, ?_, ?_⟩
  · intro hp; simp [can_generate, hp]
  · intro hp hd
    simp [can_generate, hp, hd, DAILY_LIMIT]
  · intro hp hd
    constructor
    · simp [can_generate, hp, hd]
      split <;> rfl
    · simp [can_generate, hp, hd, DAILY_LIMIT]
      split <;> rename_i hle <;> simp_all

/-- A non-premium user at the daily limit whose stored date is day 5. -/
def limitUser : UserState :=
  { is_premium := false, correct_count := 0, generate_count := 0, accuracy := some 0,
    last_generated_date := some 5, daily_generated_count := 10 }

/-- Witness for C4: `limitUser` is refused on day 5, but passes on day 6 with
the counter reset to 0 and the date advanced. -/
theorem can_generate_quota_witness :
    (can_generate limitUser 5).2.1 = false ∧
    (can_generate limitUser 6).2.1 = true ∧
    (can_generate limitUser 6).1.daily_generated_count = 0 ∧
    (can_generate limitUser 6).1.last_generated_date = some 6 := by
  have h5 := (can_generate_quota_spec limitUser 5).2.2 rfl rfl
  have h6 := (can_generate_quota_spec limitUser 6).2.1 rfl (by decide)
  exact ⟨h5.2.mpr (by decide), h6.2.2, h6.2.1, h6.1⟩

/-! ## C6 : UserStatisticsService.update_statistics -/

/-- A user whose stored `accuracy` is stale relative to the counts
(7 correct of 10 generated, but accuracy still 50). -/
def staleUser : UserState :=
  { is_premium := false, correct_count := 7, generate_count := 10, accuracy := some 50,
    last_generated_date := none, daily_generated_count := 0 }

/-- Counterexample to C6 as stated: a non-first-attempt update does NOT leave
`accuracy` unchanged — `update_statistics` recomputes it from the counts on
every call with `generate_count > 0`, so `staleUser`'s accuracy moves from 50
to 70 even though `is_first = false`. -/
theorem update_statistics_nonfirst_accuracy_cex :
    (update_statistics staleUser false true).accuracy = some 70 ∧
    (update_statistics staleUser false true).accuracy ≠ staleUser.accuracy := by
  constructor
  · show some ((7 : Rat) / 10 * 100) = some 70
    norm_num
  · show some ((7 : Rat) / 10 * 100) ≠ some 50
    norm_num

/-- C6 (amended): a first-attempt-correct update increments `correct_count`
by 1, any other update leaves it unchanged; `accuracy` is recomputed as
`correct_count / generate_count * 100` (from the post-update `correct_count`)
whenever `generate_count > 0` — on a non-first update it therefore equals the
prior value only when that value was already consistent with the counts — and
is left unchanged when `generate_count = 0`. -/
theorem update_statistics_spec (u : UserState) (f c : Bool) :
    (f = true → c = true →
      (update_statistics u f c).correct_count = u.correct_count + 1) ∧
    ((f && c) = false → (update_statistics u f c).correct_count = u.correct_count) ∧
    (0 < u.generate_count → (update_statistics u f c).accuracy =
      some (((update_statistics u f c).correct_count : Rat) / (u.generate_count : Rat) * 100)) ∧
    (u.generate_count = 0 → (update_statistics u f c).accuracy = u.accuracy) ∧
    (update_statistics u f c).generate_count = u.generate_count := by
  refine ⟨?_, ?_, ?_, ?_, ?_⟩
  · intro hf hc
    simp [update_statistics, hf, hc]
    split <;> rfl
  · intro hfc
    simp [update_statistics, hfc]
    split <;> rfl
  · intro hg
    rcases hb : f && c with _ | _ <;> simp [update_statistics, hb, hg]
  · intro hg
    rcases hb : f && c with _ | _ <;> simp [update_statistics, hb, hg]
  · rcases hb : f && c with _ | _ <;> simp [update_statistics, hb] <;> split <;> rfl

/-- A consistent user with 7 correct of 10 generated (accuracy 70). -/
def statsUser : UserState :=
  { is_premium := false, correct_count := 7, generate_count := 10, accuracy := some 70,
    last_generated_date := none, daily_generated_count := 0 }

/-- Witness for C6 (amended): from `generate_count = 10, correct_count = 7`, a
first-attempt-correct update yields `correct_count = 8` and `accuracy = 80`. -/
theorem update_statistics_spec_witness :
    (update_statistics statsUser true true).correct_count = 8 ∧
    (update_statistics statsUser true true).accuracy = some 80 := by
  have h := update_statistics_spec statsUser true true
  have hcc : (update_statistics statsUser true true).correct_count = 8 := h.1 rfl rfl
  refine ⟨hcc, ?_⟩
  rw [h.2.2.1 (by decide), hcc]
  norm_num [statsUser]

/-! ## C9 : ExplanationContextBuilder.build_context -/

/-- C9: the explanation view resolves correctness by preferring
`is_correct_first` when set, else `is_correct`; `show_user_answer`,
`show_images`, `show_back_link` and `show_next_button` are all `false`
regardless of inputs; `total_questions = 1` and `has_next = false`. -/
theorem explanation_context_spec (q : QuestionRec) (qid : Nat) (kw : String)
    (n : Nat) (r : Bool) :
    ((∀ b, q.is_correct_first = some b →
        (explanation_build_context q qid kw n r).is_correct = some b) ∧
      (q.is_correct_first = none →
        (explanation_build_context q qid kw n r).is_correct = q.is_correct)) ∧
    (explanation_build_context q qid kw n r).show_user_answer = false ∧
    (explanation_build_context q qid kw n r).show_images = false ∧
    (explanation_build_context q qid kw n r).show_back_link = false ∧
    (explanation_build_context q qid kw n r).show_next_button = false ∧
    (explanation_build_context q qid kw n r).total_questions = 1 ∧
    (explanation_build_context q qid kw n r).has_next = false := by
  refine ⟨⟨?_, ?_⟩, rfl, rfl, rfl, rfl, rfl, rfl⟩
  · intro b hb; simp [explanation_build_context, hb]
  · intro hb; simp [explanation_build_context, hb]

/-- Witness for C9 on a concrete graded question with
`is_correct_first = some true` and `is_correct = some false`. -/
theorem explanation_context_witness :
    (explanation_build_context
        { freshQ with is_correct_first := some true, is_correct := some false }
        1 "Python" 1 true).is_correct = some true ∧
    (explanation_build_context
        { freshQ with is_correct_first := some true, is_correct := some false }
        1 "Python" 1 true).total_questions = 1 := by
  have h := explanation_context_spec
    { freshQ with is_correct_first := some true, is_correct := some false } 1 "Python" 1 true
  exact ⟨h.1.1 true rfl, h.2.2.2.2.2.1⟩

/-! ## String primitives

Python string operations, embedded over `List Char` so that every function
reduces by kernel computation.  `str.strip()` trims the whitespace characters
occurring in this code base; `str.split` and `str.replace` scan left to right
over non-overlapping occurrences, exactly as modelled below. -/

/-- The whitespace trimmed by `str.strip()` (forms relevant here). -/
def wsChar (c : Char) : Bool := c = ' ' || c = '\t' || c = '\n' || c = '\r'

/-- Trim whitespace from both ends (`str.strip()`). -/
def trimL (l : List Char) : List Char :=
  ((l.dropWhile wsChar).reverse.dropWhile wsChar).reverse

/-- Python `s.split('\n')` : always at least one piece; empty pieces kept. -/
def splitLinesL : List Char → List (List Char)
  | [] => [[]]
  | c :: rest =>
    let r := splitLinesL rest
    if c = '\n' then [] :: r
    else (c :: r.headD []) :: r.tail

/-- Python `s.split('\n\n')` : split at leftmost non-overlapping occurrences of the
two-character separator. -/
def splitBlocksL : List Char → List (List Char)
  | [] => [[]]
  | '\n' :: '\n' :: rest => [] :: splitBlocksL rest
  | c :: rest =>
    let r := splitBlocksL rest
    (c :: r.headD []) :: r.tail

/-- Python `str.upper()` (ASCII case mapping; the compared values here are the
option letters A–D). -/
def pyUpper (s : String) : String := String.mk (s.toList.map Char.toUpper)

/-! ## C5 : AnswerValidationService -/

/-- Model of `re.sub(r'正解:|[()]', '', line)` : delete every occurrence of the label
`正解:` and of each parenthesis, scanning left to right. -/
def removeSeikaiLabelParens : List Char → List Char
  | '正' :: '解' :: ':' :: rest => removeSeikaiLabelParens rest
  | '(' :: rest => removeSeikaiLabelParens rest
  | ')' :: rest => removeSeikaiLabelParens rest
  | c :: rest => c :: removeSeikaiLabelParens rest
  | [] => []

/-- Model of `line.replace('解説:', '')` : delete every occurrence of the label. -/
def removeKaisetsuLabel : List Char → List Char
  | '解' :: '説' :: ':' :: rest => removeKaisetsuLabel rest
  | c :: rest => c :: removeKaisetsuLabel rest
  | [] => []

/-- The per-line extraction loop of `check_answer_with_ai`: a line starting
with `正解:` (re)sets `correct_option`, a line starting with `解説:` (re)sets
`explanation_text`; other lines are ignored. -/
def answerExtractLoop : List (List Char) → Option (List Char) × List Char →
    Option (List Char) × List Char
  | [], acc => acc
  | line :: rest, (co, et) =>
    if "正解:".toList.isPrefixOf line then
      answerExtractLoop rest (some (trimL (removeSeikaiLabelParens line)), et)
    else if "解説:".toList.isPrefixOf line then
      answerExtractLoop rest (co, trimL (removeKaisetsuLabel line))
    else answerExtractLoop rest (co, et)

/-- The parsing part of `AnswerValidationService.check_answer_with_ai`,
applied to the LLM response content (the HTTP call itself is the external
collaborator): strip the content, then scan its lines.  Returns
`(correct_option, explanation_text, explanation)`. -/
def check_answer_extract (content : String) : Option String × String × String :=
  let expl := trimL content.toList
  let (co, et) := answerExtractLoop (splitLinesL expl) (none, "".toList)
  (co.map String.mk, String.mk et, String.mk expl)

/-- Model of `AnswerValidationService.is_correct`.  The Python body is
`user_answer.upper() == correct_option.upper()`; when `correct_option` is
`None` the attribute access raises `AttributeError`, modelled as `.error`. -/
def is_correct (user_answer : String) : Option String → Except String Bool
  | none => Except.error "AttributeError"
  | some co => Except.ok (pyUpper user_answer == pyUpper co)

/-- Helper: the extraction loop never produces a `correct_option` when no
line carries the `正解:` label. -/
theorem answerExtractLoop_no_label (lines : List (List Char)) :
    ∀ (co : Option (List Char)) (et : List Char),
    (∀ l ∈ lines, ¬ "正解:".toList.isPrefixOf l) →
    (answerExtractLoop lines (co, et)).1 = co := by
  induction lines with
  | nil => intro co et _; rfl
  | cons line rest ih =>
    intro co et h
    have hline : ¬ "正解:".toList.isPrefixOf line := h line (by simp)
    have hrest : ∀ l ∈ rest, ¬ "正解:".toList.isPrefixOf l := fun l hl => h l (by simp [hl])
    have hs : "正解:".toList.isPrefixOf line = false := by
      cases hval : "正解:".toList.isPrefixOf line
      · rfl
      · exact absurd hval hline
    cases hk : "解説:".toList.isPrefixOf line
    · simpa only [answerExtractLoop, hs, hk, Bool.false_eq_true, if_false]
        using ih co et hrest
    · simpa only [answerExtractLoop, hs, hk, Bool.false_eq_true, if_false, if_true]
        using ih co (trimL (removeKaisetsuLabel line)) hrest

/-- C5 (amended): when no line of the (stripped) grading response starts with
the correct-answer label `正解:`, the extracted `correct_option` is `none`,
and the downstream correctness check on an absent option RAISES
(`AttributeError` on `None.upper()`, caught upstream as a generic error) —
it does not evaluate to `false`; with a present option, correctness is
case-insensitive string equality of the user's answer and the option. -/
theorem answer_extraction_spec (content : String) (ua : String) :
    ((∀ l ∈ splitLinesL (trimL content.toList), ¬ "正解:".toList.isPrefixOf l) →
      (check_answer_extract content).1 = none) ∧
    is_correct ua none = Except.error "AttributeError" ∧
    (∀ co : String, is_correct ua (some co) = Except.ok (pyUpper ua == pyUpper co)) := by
  refine ⟨?_, rfl, fun _ => rfl⟩
  intro h
  have hz := answerExtractLoop_no_label (splitLinesL (trimL content.toList)) none "".toList h
  simpa [check_answer_extract] using congrArg (Option.map String.mk) hz

/-- A grading response with no `正解:` line. -/
def noAnswerResp : String := "こんにちは\n解説:これはテストです。"

/-- Counterexample to C5 as stated: on a response with no correct-answer
line, `correct_option` extracts to `none`, and the correctness check on it is
an `AttributeError`, not the value `false`. -/
theorem no_answer_line_raises_cex :
    (check_answer_extract noAnswerResp).1 = none ∧
    is_correct "A" (check_answer_extract noAnswerResp).1 = Except.error "AttributeError" ∧
    is_correct "A" (check_answer_extract noAnswerResp).1 ≠ Except.ok false := by
  refine ⟨by decide, by decide, by decide⟩

/-- Witness for C5 (amended), on `noAnswerResp` and on present options. -/
theorem answer_extraction_witness :
    (check_answer_extract noAnswerResp).1 = none ∧
    is_correct "a" (some "A") = Except.ok true ∧
    is_correct "B" (some "A") = Except.ok false := by
  have h := answer_extraction_spec noAnswerResp "a"
  refine ⟨h.1 (by decide), ?_, ?_⟩
  · rw [(answer_extraction_spec noAnswerResp "a").2.2 "A"]; decide
  · rw [(answer_extraction_spec noAnswerResp "B").2.2 "A"]; decide

/-! ## C3 : QuestionTextCleaner.clean_question_text -/

/-- The character class of `re.sub(r'^[問題0-9:\.]+', '', text)`: the label
characters `問` `題`, ASCII digits, colon and period. -/
def isLeadNoise (c : Char) : Bool :=
  c = '問' || c = '題' || ('0' ≤ c && c ≤ '9') || c = ':' || c = '.'

/-- Model of `QuestionTextCleaner.clean_question_text`: strip the leading run of
numbering characters and surrounding whitespace; then, if the full-width
question mark occurs anywhere, keep the text up to the first one (stripped)
and append `？`; otherwise, if the full-width period occurs, keep the text up
to the first one (stripped) and append `？`; otherwise return unchanged. -/
def clean_question_text_list (text : List Char) : List Char :=
  let cleaned := trimL (text.dropWhile isLeadNoise)
  if cleaned.contains '？' then
    trimL (cleaned.takeWhile (fun c => c != '？')) ++ ['？']
  else if cleaned.contains '。' then
    trimL (cleaned.takeWhile (fun c => c != '。')) ++ ['？']
  else cleaned

/-- String wrapper for `clean_question_text`. -/
def clean_question_text (s : String) : String :=
  String.mk (clean_question_text_list s.toList)

/-- Modelled from the claim's words, for comparison: after the leading strip,
cut at the FIRST occurrence — scanning left to right — of either terminator
(`？` or `。`) inclusive, normalising the terminator to `？`; unchanged when
neither occurs. -/
def clean_question_text_claimed (s : String) : String :=
  let cleaned := trimL (s.toList.dropWhile isLeadNoise)
  if cleaned.any (fun c => c = '？' || c = '。') then
    String.mk (trimL (cleaned.takeWhile (fun c => c != '？' && c != '。')) ++ ['？'])
  else String.mk cleaned

/-- A text in which a full-width period precedes the full-width question
mark. -/
def mixedText : String := "これは文です。質問ですか？"

/-- Counterexample to C3 as stated: on `mixedText` the code cuts at the
(later) question mark — the branch on `？` has priority over `。` regardless
of position — whereas the claim's left-to-right first-terminator rule would
cut at the earlier period. -/
theorem clean_question_text_period_first_cex :
    clean_question_text mixedText = "これは文です。質問ですか？" ∧
    clean_question_text_claimed mixedText = "これは文です？" ∧
    clean_question_text mixedText ≠ clean_question_text_claimed mixedText := by
  refine ⟨by decide, by decide, by decide⟩

/-- Prefix before the first occurrence = take up to the index of the first
occurrence. -/
theorem takeWhile_ne_eq_take_indexOf (a : Char) (l : List Char) :
    l.takeWhile (fun c => c != a) = l.take (l.indexOf a) := by
  induction l with
  | nil => rfl
  | cons c rest ih =>
    simp only [List.takeWhile_cons, List.indexOf_cons]
    by_cases h : c = a
    · subst h; simp
    · have hbeq : (c == a) = false := by simp [h]
      simp [hbeq, bne]
      simpa [bne] using ih

/-- C3 (amended): `clean_question_text` first strips the leading run of
characters from the numbering class, then trims whitespace; if `？` occurs
anywhere in the result it cuts at the first `？` (inclusive) — even when a
`。` occurs earlier; only when no `？` occurs does it cut at the first `。`,
replacing it by `？`; when neither occurs the trimmed text is returned
unchanged. -/
theorem clean_question_text_spec (text : List Char) :
    ('？' ∈ trimL (text.dropWhile isLeadNoise) →
      clean_question_text_list text =
        trimL ((trimL (text.dropWhile isLeadNoise)).take
          ((trimL (text.dropWhile isLeadNoise)).indexOf '？')) ++ ['？']) ∧
    ('？' ∉ trimL (text.dropWhile isLeadNoise) →
      '。' ∈ trimL (text.dropWhile isLeadNoise) →
      clean_question_text_list text =
        trimL ((trimL (text.dropWhile isLeadNoise)).take
          ((trimL (text.dropWhile isLeadNoise)).indexOf '。')) ++ ['？']) ∧
    ('？' ∉ trimL (text.dropWhile isLeadNoise) →
      '。' ∉ trimL (text.dropWhile isLeadNoise) →
      clean_question_text_list text = trimL (text.dropWhile isLeadNoise)) := by
  refine ⟨?_, ?_, ?_⟩
  · intro hq
    simp [clean_question_text_list, hq, takeWhile_ne_eq_take_indexOf]
  · intro hq hp
    simp [clean_question_text_list, hq, hp, takeWhile_ne_eq_take_indexOf]
  · intro hq hp
    simp [clean_question_text_list, hq, hp]

/-- Witness for C3 (amended): the spec's own example, and the `。`-fallback,
via the amended theorem. -/
theorem clean_question_text_spec_witness :
    clean_question_text "問題1: Pythonとは何か？これは説明です。" = "Pythonとは何か？" ∧
    clean_question_text "問題1: Pythonとは何か。これは説明です。" = "Pythonとは何か？" := by
  constructor
  · have h := (clean_question_text_spec "問題1: Pythonとは何か？これは説明です。".toList).1
      (by decide)
    rw [clean_question_text, h]
    decide
  · have h := (clean_question_text_spec "問題1: Pythonとは何か。これは説明です。".toList).2.1
      (by decide) (by decide)
    rw [clean_question_text, h]
    decide

/-! ## C7 : QuestionSimilarityChecker / difflib.SequenceMatcher

Embedding of CPython `difflib.SequenceMatcher` as used by
`QuestionSimilarityChecker.is_similar` (no junk argument; the autojunk
popular-element pruning applies only to second strings of length ≥ 200 and is
not modelled).  `find_longest_match` runs the standard run-length dynamic
program over a window of `b`, keeping the first longest block in ascending
`(i, j)` order (updates only on strictly greater length); `get_matching_blocks`
recursively splits around each longest block; `ratio` is `2*M/T` (with ratio
`1` for two empty strings), here computed exactly over `Rat`.  The DP row is
encoded as base-`2^32` digits of a natural number so that matrix cells reduce
by kernel arithmetic. -/

/-- Digit base for encoded DP rows (far above any attainable run length). -/
def smBase : Nat := 2 ^ 32

/-- Bitmask of the positions of character `c` in the `b` window (the role of
difflib's `b2j` table). -/
def charMask (c : Char) : List Char → Nat
  | [] => 0
  | x :: xs => (if x = c then 1 else 0) + 2 * charMask c xs

/-- One DP row: digit `j` of the result is the length of the common run
ending at `(i, j)`, computed from the match mask of row `i` and the previous
row shifted one digit up (difflib's `newj2len[j] = j2len.get(j-1, 0) + 1`).
The list argument only drives the recursion over the digits. -/
def smRowN : List Char → Nat → Nat → Nat
  | [], _, _ => 0
  | _ :: bs, mask, prevShifted =>
    (if mask % 2 = 1 then prevShifted % smBase + 1 else 0)
      + smBase * smRowN bs (mask / 2) (prevShifted / smBase)

/-- Scan a row's digits in ascending `j`, replacing the best block only on a
strictly greater run length (difflib keeps the earliest maximal block). -/
def smBestRowN (i : Nat) : List Char → Nat → Nat → (Nat × Nat × Nat) → (Nat × Nat × Nat)
  | [], _, _, best => best
  | _ :: bs, j, row, best =>
    let k := row % smBase
    smBestRowN i bs (j+1) (row / smBase) (if best.2.2 < k then (i + 1 - k, j + 1 - k, k) else best)

/-- Iterate the DP rows over the `a` window. -/
def smRowsN (b : List Char) : List Char → Nat → Nat → (Nat × Nat × Nat) → (Nat × Nat × Nat)
  | [], _, _, best => best
  | ai :: arest, i, prev, best =>
    let row := smRowN b (charMask ai b) (prev * smBase)
    smRowsN b arest (i+1) row (smBestRowN i b 0 row best)

/-- Model of `SequenceMatcher.find_longest_match` (without junk) on the
windows `a[alo:ahi]`, `b[blo:bhi]`: the longest common block, earliest in
`(i, j)` order; `(alo, blo, 0)` when the windows share nothing. -/
def findLongestMatch (a b : List Char) (alo ahi blo bhi : Nat) : Nat × Nat × Nat :=
  let aSlice := (a.take ahi).drop alo
  let bSlice := (b.take bhi).drop blo
  let r := smRowsN bSlice aSlice 0 0 (0, 0, 0)
  (alo + r.1, blo + r.2.1, r.2.2)

/-- Total size of all matching blocks (the recursive split of
`get_matching_blocks`, fuelled by the window width, which bounds the
recursion depth). -/
def matchTotalAux (a b : List Char) : Nat → Nat → Nat → Nat → Nat → Nat
  | 0, _, _, _, _ => 0
  | fuel+1, alo, ahi, blo, bhi =>
    let r := findLongestMatch a b alo ahi blo bhi
    if r.2.2 = 0 then 0
    else r.2.2 + matchTotalAux a b fuel alo r.1 blo r.2.1
              + matchTotalAux a b fuel (r.1 + r.2.2) ahi (r.2.1 + r.2.2) bhi

/-- Sum of matching-block sizes for two whole strings. -/
def matchTotal (a b : List Char) : Nat :=
  matchTotalAux a b (a.length + 1) 0 a.length 0 b.length

/-- Model of `SequenceMatcher.ratio()`: `2*M / T` over the total length `T`
of both strings (`1.0` when both are empty), as an exact rational. -/
def ratioScore (a b : String) : Rat :=
  let la := a.toList.length
  let lb := b.toList.length
  if la + lb = 0 then 1
  else (2 * (matchTotal a.toList b.toList) : Rat) / (((la + lb : Nat)) : Rat)

/-- Model of `QuestionSimilarityChecker.is_similar` (past questions are
represented by their `question_text` strings; the default threshold `0.4` is
the rational `2/5`): scan the prior texts in order and return `True` at the
first whose ratio strictly exceeds the threshold. -/
def is_similar (new_question : String) (past_questions : List String)
    (threshold : Rat := 2/5) : Bool :=
  match past_questions with
  | [] => false
  | p :: rest =>
    if threshold < ratioScore new_question p then true
    else is_similar new_question rest threshold

/-- Reduce a threshold comparison on `ratioScore` to integer arithmetic. -/
theorem ratioScore_lt_iff (a b : String) (t : Rat)
    (h : a.toList.length + b.toList.length ≠ 0) :
    (t < ratioScore a b ↔
      t * ((a.toList.length + b.toList.length : Nat) : Rat) <
        2 * (matchTotal a.toList b.toList : Rat)) := by
  simp only [ratioScore, if_neg h]
  rw [lt_div_iff₀]
  exact_mod_cast Nat.pos_of_ne_zero h

set_option maxRecDepth 4000 in
/-- Cross-checks of the `SequenceMatcher` embedding against CPython difflib
outputs on assorted inputs (match totals computed by the reference
implementation). -/
theorem matchTotal_crosscheck :
    matchTotal "abcd".toList "bcde".toList = 3 ∧
    matchTotal "abxcd".toList "abcd".toList = 4 ∧
    matchTotal "abab".toList "baba".toList = 3 ∧
    matchTotal "aaaa".toList "aa".toList = 2 ∧
    matchTotal "".toList "".toList = 0 ∧
    matchTotal "何a何".toList "何2X".toList = 1 ∧
    matchTotal "c2b22と何Y何a".toList "b何Y1bY2cとa".toList = 4 := by
  refine ⟨by decide, by decide, by decide, by decide, by decide, by decide, by decide⟩

set_option maxRecDepth 4000 in
/-- C7: `is_similar` returns `true` exactly when some prior text's ratio
strictly exceeds the threshold; it returns `false` on an empty prior list,
and on a cons it short-circuits at the head before consulting the tail; an
identical prior text yields `true` at threshold `2/5`, an unrelated sentence
yields `false`. -/
theorem is_similar_spec (n : String) (ps : List String) (t : Rat) :
    (is_similar n ps t = true ↔ ∃ p ∈ ps, t < ratioScore n p) ∧
    (is_similar n [] t = false) ∧
    (∀ p rest, is_similar n (p :: rest) t =
      if t < ratioScore n p then true else is_similar n rest t) ∧
    is_similar "Pythonとは何ですか" ["Pythonとは何ですか"] (2/5) = true ∧
    is_similar "Nothing alike" ["Pythonとは何ですか"] (2/5) = false := by
  refine ⟨?_, rfl, fun p rest => rfl, ?_, ?_⟩
  · induction ps with
    | nil => simp [is_similar]
    | cons p rest ih =>
      by_cases h : t < ratioScore n p <;> simp [is_similar, h, ih]
  · have hid : (2/5 : Rat) < ratioScore "Pythonとは何ですか" "Pythonとは何ですか" := by
      rw [ratioScore_lt_iff _ _ _ (by decide)]
      have hm : matchTotal "Pythonとは何ですか".toList "Pythonとは何ですか".toList = 12 := by
        decide
      have hl : "Pythonとは何ですか".toList.length = 12 := by decide
      rw [hm, hl]
      norm_num
    simp [is_similar, hid]
  · have hnd : ¬ ((2/5 : Rat) < ratioScore "Nothing alike" "Pythonとは何ですか") := by
      rw [ratioScore_lt_iff _ _ _ (by decide)]
      have hm : matchTotal "Nothing alike".toList "Pythonとは何ですか".toList = 3 := by decide
      have hl : "Nothing alike".toList.length = 13 := by decide
      have hl2 : "Pythonとは何ですか".toList.length = 12 := by decide
      rw [hm, hl, hl2]
      norm_num
    simp [is_similar, hnd]

/-! ## C2 / C8 : QuestionGenerator, QuestionPersistenceService and the
generation orchestrator (`core/services/question_generation.py`).

The LLM completion endpoint is the external collaborator: a completion
source is modelled as a function from the attempt number (1-based) to the
response content.  File processing (image dimensions / PDF extraction) is
likewise external: document-mode generation is modelled from the extracted
text onward. -/

/-- Candidate-block validation of one block inside
`QuestionGenerator.generate_and_validate`: reject when fewer than 5
non-blank lines, when the stripped first line is shorter than 10 characters,
and — only when a non-empty prior-question list was supplied — when the
similarity check flags the first line. -/
def blockValid (pq : Option (List String)) (block : List Char) : Bool :=
  let lines := splitLinesL block
  let nonEmpty := lines.filter (fun l => trimL l != [])
  if nonEmpty.length < 5 then false
  else
    let mainQ := trimL (lines.headD [])
    if mainQ.length < 10 then false
    else
      match pq with
      | none => true
      | some l => if l ≠ [] && is_similar (String.mk mainQ) l (2/5) then false else true

/-- The inner for-loop over one response's candidate blocks: append each
valid block to the accumulator, breaking as soon as `maxq` are collected. -/
def processBlocks (pq : Option (List String)) (maxq : Nat) :
    List (List Char) → List (List Char) → List (List Char)
  | acc, [] => acc
  | acc, b :: rest =>
    if blockValid pq b then
      let acc2 := acc ++ [b]
      if maxq ≤ acc2.length then acc2
      else processBlocks pq maxq acc2 rest
    else processBlocks pq maxq acc rest

/-- The while-loop of `generate_and_validate`: up to `fuel` further attempts,
each issuing one completion call, splitting the stripped response at blank
lines and validating its blocks; stops once `maxq` blocks are collected.
Returns the accumulator and the number of attempts (completion calls) made. -/
def genGo (oracle : Nat → String) (pq : Option (List String)) (maxq : Nat) :
    Nat → Nat → List (List Char) → List (List Char) × Nat
  | 0, attempt, acc => (acc, attempt)
  | fuel+1, attempt, acc =>
    if maxq ≤ acc.length then (acc, attempt)
    else
      genGo oracle pq maxq fuel (attempt + 1)
        (processBlocks pq maxq acc (splitBlocksL (trimL (oracle (attempt + 1)).toList)))

/-- Model of `QuestionGenerator.generate_and_validate` (default
`max_questions = 10`, `max_attempts = 5`). -/
def generate_and_validate (oracle : Nat → String) (pq : Option (List String))
    (maxq : Nat := 10) (maxAttempts : Nat := 5) : List (List Char) × Nat :=
  genGo oracle pq maxq maxAttempts 0 []

/-- Valid candidate blocks of one response, in response order. -/
def validBlocksOf (pq : Option (List String)) (resp : String) : List (List Char) :=
  (splitBlocksL (trimL resp.toList)).filter (blockValid pq)

/-- Concatenation of the valid blocks of attempts
`attempt+1 … attempt+fuel`, in order. -/
def validAcross (oracle : Nat → String) (pq : Option (List String)) :
    Nat → Nat → List (List Char)
  | 0, _ => []
  | fuel+1, attempt => validBlocksOf pq (oracle (attempt + 1)) ++ validAcross oracle pq fuel (attempt + 1)

/-- One session batch entry (`request.session['all_questions']` item). -/
structure SessionQ where
  question_text : String
  theme : String
  question_number : Nat
  deriving Repr, DecidableEq

/-- One persisted `Question` row as created by `save_to_session`. -/
structure DBQuestion where
  theme : String
  question_text : String
  question_number : Nat
  difficulty : Option String
  deriving Repr, DecidableEq

/-- Python truthiness of the optional difficulty string (`if difficulty:`). -/
def pyTruthy : Option String → Bool
  | none => false
  | some s => s != ""

/-- Number the questions `n, n+1, …` in list order (the `enumerate(…, 1)` of
`save_to_session`), attaching the difficulty only when truthy. -/
def numberQuestions (theme : String) (difficulty : Option String) : Nat → List String → List DBQuestion
  | _, [] => []
  | n, q :: rest =>
    { theme := theme, question_text := q, question_number := n,
      difficulty := if pyTruthy difficulty then difficulty else none }
      :: numberQuestions theme difficulty (n+1) rest

/-- Model of `QuestionPersistenceService.save_to_session`: persist the first
10 validated questions numbered from 1, mirror them into a fresh session
batch, and add the validated count to the user's `generate_count`. -/
def save_to_session (u : UserState) (vq : List String) (theme : String)
    (difficulty : Option String) : UserState × List SessionQ × List DBQuestion :=
  let dbq := numberQuestions theme difficulty 1 (vq.take 10)
  let sess := dbq.map (fun q =>
    { question_text := q.question_text, theme := q.theme,
      question_number := q.question_number : SessionQ })
  ({ u with generate_count := u.generate_count + vq.length }, sess, dbq)

/-- The observable outcome of one orchestrated generation call. -/
structure GenOutcome where
  user : UserState
  session : List SessionQ
  persisted : List DBQuestion
  llm_calls : Nat
  theme : Option String
  error : Option String
  deriving Repr, DecidableEq

/-- The user-facing message of the insufficient-yield failure. -/
def insufficientMsg : String := "有効な問題を生成できませんでした。別のキーワードでお試しください。"

/-- Model of `QuestionGenerationOrchestrator.generate_from_text` (topic
mode): gate on the usage limiter, fetch up to 20 prior same-topic question
texts, run the generate-and-validate loop, fail when fewer than 10 valid
questions, otherwise bump the daily counter and persist. -/
def generate_from_text (u : UserState) (today : Int) (oracle : Nat → String)
    (theme : String) (difficulty : String) (pastQs : List String)
    (session : List SessionQ) : GenOutcome :=
  let r := can_generate u today
  if r.2.1 then
    let g := generate_and_validate oracle (some (pastQs.take 20)) 10 5
    let vq := g.1.map String.mk
    if vq.length < 10 then
      { user := r.1, session := session, persisted := [], llm_calls := g.2,
        theme := none, error := some insufficientMsg }
    else
      let u2 := update_daily_count r.1 vq.length
      let s := save_to_session u2 vq theme (some difficulty)
      { user := s.1, session := s.2.1, persisted := s.2.2, llm_calls := g.2,
        theme := some theme, error := none }
  else
    { user := r.1, session := session, persisted := [], llm_calls := 0,
      theme := none, error := r.2.2 }

/-- Model of `QuestionGenerationOrchestrator.generate_from_file` (document
mode), from the extracted text onward: no limiter gate, no prior-question
similarity filtering (`past_questions = None`), no daily-counter update; the
topic is the first 10 characters of the extracted text
(`PromptBuilder.build_file_prompt`). -/
def generate_from_file (u : UserState) (oracle : Nat → String)
    (extracted_text : String) (session : List SessionQ) : GenOutcome :=
  let theme := String.mk (extracted_text.toList.take 10)
  let g := generate_and_validate oracle none 10 5
  let vq := g.1.map String.mk
  if vq.length < 10 then
    { user := u, session := session, persisted := [], llm_calls := g.2,
      theme := none, error := some insufficientMsg }
  else
    let s := save_to_session u vq theme none
    { user := s.1, session := s.2.1, persisted := s.2.2, llm_calls := g.2,
      theme := some theme, error := none }

/-- Taking `n` of an append absorbs an inner `take n`. -/
theorem take_append_take {α : Type} (x y : List α) (n : Nat) :
    ((x.take n) ++ y).take n = (x ++ y).take n := by
  rcases le_or_lt n x.length with h | h
  · rw [List.take_append_of_le_length (by simp [List.length_take]; omega),
        List.take_take, Nat.min_self, List.take_append_of_le_length h]
  · rw [List.take_of_length_le (Nat.le_of_lt h)]

/-- The inner block loop collects exactly the first `maxq` valid blocks. -/
theorem processBlocks_eq_take (pq : Option (List String)) (maxq : Nat) :
    ∀ (blocks acc : List (List Char)), acc.length < maxq →
    processBlocks pq maxq acc blocks = (acc ++ blocks.filter (blockValid pq)).take maxq := by
  intro blocks
  induction blocks with
  | nil =>
    intro acc h
    simp [processBlocks, List.take_of_length_le (Nat.le_of_lt h)]
  | cons b rest ih =>
    intro acc h
    cases hv : blockValid pq b
    · rw [show processBlocks pq maxq acc (b :: rest) = processBlocks pq maxq acc rest by
        simp [processBlocks, hv]]
      rw [ih acc h, List.filter_cons_of_neg (by simp [hv])]
    · by_cases hm : maxq ≤ acc.length + 1
      · have hlen : (acc ++ [b]).length = maxq := by
          simp only [List.length_append, List.length_cons, List.length_nil]
          omega
        rw [show processBlocks pq maxq acc (b :: rest) = acc ++ [b] by
          simp [processBlocks, hv, hm]]
        rw [List.filter_cons_of_pos (by simp [hv]),
          show acc ++ b :: List.filter (blockValid pq) rest
            = (acc ++ [b]) ++ List.filter (blockValid pq) rest by simp,
          List.take_left' hlen]
      · have hlt : (acc ++ [b]).length < maxq := by
          simp only [List.length_append, List.length_cons, List.length_nil]
          omega
        rw [show processBlocks pq maxq acc (b :: rest)
            = processBlocks pq maxq (acc ++ [b]) rest by
          simp [processBlocks, hv, hm]]
        rw [ih (acc ++ [b]) hlt, List.filter_cons_of_pos (by simp [hv])]
        congr 1
        simp

/-- The attempt loop's accumulator equals the first `maxq` valid blocks of
the concatenated attempts. -/
theorem genGo_fst_eq (oracle : Nat → String) (pq : Option (List String)) (maxq : Nat) :
    ∀ (fuel attempt : Nat) (acc : List (List Char)), acc.length ≤ maxq →
    (genGo oracle pq maxq fuel attempt acc).1 =
      (acc ++ validAcross oracle pq fuel attempt).take maxq := by
  intro fuel
  induction fuel with
  | zero =>
    intro attempt acc h
    simp [genGo, validAcross, List.take_of_length_le h]
  | succ fuel ih =>
    intro attempt acc h
    by_cases hm : maxq ≤ acc.length
    · have hlen : acc.length = maxq := Nat.le_antisymm h hm
      rw [show genGo oracle pq maxq (fuel+1) attempt acc = (acc, attempt) by
        simp [genGo, hm]]
      rw [show (acc, attempt).1 = acc from rfl,
        show acc ++ validAcross oracle pq (fuel+1) attempt
          = acc ++ validAcross oracle pq (fuel+1) attempt from rfl,
        List.take_append_of_le_length (by omega), List.take_of_length_le (by omega)]
    · push_neg at hm
      rw [show genGo oracle pq maxq (fuel+1) attempt acc
          = genGo oracle pq maxq fuel (attempt+1)
              (processBlocks pq maxq acc (splitBlocksL (trimL (oracle (attempt+1)).toList))) by
        simp [genGo, Nat.not_le.mpr hm]]
      rw [processBlocks_eq_take pq maxq _ acc hm]
      have hlen2 : ((acc ++ (splitBlocksL (trimL (oracle (attempt+1)).toList)).filter
          (blockValid pq)).take maxq).length ≤ maxq := by
        simp [List.length_take]
      rw [ih (attempt+1) _ hlen2, take_append_take]
      rw [show validAcross oracle pq (fuel+1) attempt
          = validBlocksOf pq (oracle (attempt+1)) ++ validAcross oracle pq fuel (attempt+1)
          from rfl]
      rw [validBlocksOf, List.append_assoc]

/-- The attempt loop issues at most `fuel` completion calls beyond the
starting attempt counter. -/
theorem genGo_calls_le (oracle : Nat → String) (pq : Option (List String)) (maxq : Nat) :
    ∀ (fuel attempt : Nat) (acc : List (List Char)),
    (genGo oracle pq maxq fuel attempt acc).2 ≤ attempt + fuel := by
  intro fuel
  induction fuel with
  | zero => intro attempt acc; simp [genGo]
  | succ fuel ih =>
    intro attempt acc
    by_cases hm : maxq ≤ acc.length
    · simp [genGo, hm]
    · rw [show genGo oracle pq maxq (fuel+1) attempt acc
          = genGo oracle pq maxq fuel (attempt+1)
              (processBlocks pq maxq acc (splitBlocksL (trimL (oracle (attempt+1)).toList))) by
        simp [genGo, hm]]
      have := ih (attempt+1)
        (processBlocks pq maxq acc (splitBlocksL (trimL (oracle (attempt+1)).toList)))
      omega

/-- When the limiter refuses, it has not written anything: refusal only
happens on the no-reset path. -/
theorem can_generate_false_no_write (u : UserState) (today : Int)
    (h : (can_generate u today).2.1 = false) :
    (can_generate u today).1 = u := by
  by_cases hp : u.is_premium
  · simp [can_generate, hp] at h
  · by_cases hd : u.last_generated_date = some today
    · simp [can_generate, hp, hd]
      split <;> rfl
    · simp [can_generate, hp, hd, DAILY_LIMIT] at h

/-- The numbering produced by `numberQuestions` is `n, n+1, …`. -/
theorem numberQuestions_map_number (theme : String) (d : Option String) :
    ∀ (l : List String) (n : Nat),
    (numberQuestions theme d n l).map (fun q => q.question_number) = List.range' n l.length := by
  intro l
  induction l with
  | nil => intro n; simp [numberQuestions]
  | cons q rest ih =>
    intro n
    simp [numberQuestions, ih, List.range'_succ]

/-- C2: with the limiter passing, topic-mode generation (for any completion
source) fails with the insufficient-yield message, persists nothing and
leaves the session batch untouched whenever fewer than 10 blocks across the
5 attempts pass validation (and it never makes more than 5 completion
calls); and when the first attempt already yields at least 10 valid blocks,
exactly the first 10 accepted candidates are persisted in response order,
numbered 1 through 10 for the topic. -/
theorem generation_yield_spec (u : UserState) (today : Int) (oracle : Nat → String)
    (theme difficulty : String) (pastQs : List String) (session : List SessionQ)
    (hok : (can_generate u today).2.1 = true) :
    ((validAcross oracle (some (pastQs.take 20)) 5 0).length < 10 →
      (generate_from_text u today oracle theme difficulty pastQs session).persisted = [] ∧
      (generate_from_text u today oracle theme difficulty pastQs session).error
        = some insufficientMsg ∧
      (generate_from_text u today oracle theme difficulty pastQs session).theme = none ∧
      (generate_from_text u today oracle theme difficulty pastQs session).session = session ∧
      (generate_from_text u today oracle theme difficulty pastQs session).llm_calls ≤ 5) ∧
    (10 ≤ (validBlocksOf (some (pastQs.take 20)) (oracle 1)).length →
      (generate_from_text u today oracle theme difficulty pastQs session).persisted
        = numberQuestions theme (some difficulty) 1
            (((validBlocksOf (some (pastQs.take 20)) (oracle 1)).take 10).map String.mk) ∧
      (generate_from_text u today oracle theme difficulty pastQs session).persisted.map
          (fun q => q.question_number) = List.range' 1 10 ∧
      (generate_from_text u today oracle theme difficulty pastQs session).error = none ∧
      (generate_from_text u today oracle theme difficulty pastQs session).theme
        = some theme) := by
  constructor
  · intro hlt
    have hvq : (genGo oracle (some (pastQs.take 20)) 10 5 0 []).1
        = (validAcross oracle (some (pastQs.take 20)) 5 0).take 10 := by
      rw [genGo_fst_eq oracle (some (pastQs.take 20)) 10 5 0 [] (by simp)]
      simp
    have hvlen :
        (genGo oracle (some (pastQs.take 20)) 10 5 0 []).1.length < 10 := by
      rw [hvq]
      simp only [List.length_take]
      omega
    have hcalls := genGo_calls_le oracle (some (pastQs.take 20)) 10 5 0 []
    refine ⟨?_, ?_, ?_, ?_, ?_⟩
    · simp [generate_from_text, generate_and_validate, hok, hvlen]
    · simp [generate_from_text, generate_and_validate, hok, hvlen]
    · simp [generate_from_text, generate_and_validate, hok, hvlen]
    · simp [generate_from_text, generate_and_validate, hok, hvlen]
    · simp [generate_from_text, generate_and_validate, hok, hvlen]
      simpa using hcalls
  · intro h10
    have h1 : validAcross oracle (some (pastQs.take 20)) 5 0
        = validBlocksOf (some (pastQs.take 20)) (oracle 1)
          ++ validAcross oracle (some (pastQs.take 20)) 4 1 := rfl
    have hvq : (genGo oracle (some (pastQs.take 20)) 10 5 0 []).1
        = (validBlocksOf (some (pastQs.take 20)) (oracle 1)).take 10 := by
      rw [genGo_fst_eq oracle (some (pastQs.take 20)) 10 5 0 [] (by simp)]
      rw [List.nil_append, h1, List.take_append_of_le_length h10]
    have hveq : (genGo oracle (some (pastQs.take 20)) 10 5 0 []).1.map String.mk
        = ((validBlocksOf (some (pastQs.take 20)) (oracle 1)).take 10).map String.mk := by
      rw [hvq]
    have hlen10 :
        (genGo oracle (some (pastQs.take 20)) 10 5 0 []).1.length = 10 := by
      rw [hvq]
      simp only [List.length_take]
      omega
    have hnot :
        ¬ (genGo oracle (some (pastQs.take 20)) 10 5 0 []).1.length < 10 := by
      omega
    have hnotv : ¬ (validBlocksOf (some (pastQs.take 20)) (oracle 1)).length < 10 :=
      Nat.not_lt.mpr h10
    have hpers : (generate_from_text u today oracle theme difficulty pastQs session).persisted
        = numberQuestions theme (some difficulty) 1
            (((validBlocksOf (some (pastQs.take 20)) (oracle 1)).take 10).map String.mk) := by
      simp [generate_from_text, generate_and_validate, hok, hnot, hnotv, save_to_session, hvq,
        List.take_take]
    refine ⟨hpers, ?_, ?_, ?_⟩
    · rw [hpers, numberQuestions_map_number]
      have : (((validBlocksOf (some (pastQs.take 20)) (oracle 1)).take 10).map String.mk).length
          = 10 := by
        simp only [List.length_map, List.length_take]
        omega
      rw [this]
    · simp [generate_from_text, generate_and_validate, hok, hnot]
    · simp [generate_from_text, generate_and_validate, hok, hnot]

/-- A premium user (passes the limiter unconditionally). -/
def premiumU : UserState :=
  { is_premium := true, correct_count := 0, generate_count := 0, accuracy := some 0,
    last_generated_date := none, daily_generated_count := 0 }

/-- Witness for C2: a completion source returning empty responses yields
fewer than 10 valid blocks across the 5 attempts, so a premium user's
topic-mode generation fails with the insufficient-yield message and persists
nothing. -/
theorem generation_yield_witness :
    (generate_from_text premiumU 0 (fun _ => "") "Python" "basic" [] []).persisted = [] ∧
    (generate_from_text premiumU 0 (fun _ => "") "Python" "basic" [] []).error
      = some insufficientMsg ∧
    (generate_from_text premiumU 0 (fun _ => "") "Python" "basic" [] []).llm_calls ≤ 5 := by
  have h := (generation_yield_spec premiumU 0 (fun _ => "") "Python" "basic" [] []
    (by decide)).1 (by decide)
  exact ⟨h.1, h.2.1, h.2.2.2.2⟩

/-- C8: a topic-mode request by a user the limiter refuses short-circuits
with the limiter's message, zero completion calls, nothing persisted, the
user state bit-for-bit unchanged and the session batch untouched; and
document-mode generation leaves the daily quota counter, the stored date and
the premium flag unchanged while its persisted questions, session batch,
completion-call count, topic and error are independent of the user entirely
(it never consults the limiter). -/
theorem limiter_gate_and_document_mode (u u2 : UserState) (today : Int)
    (oracle : Nat → String) (theme difficulty : String) (pastQs : List String)
    (session : List SessionQ) (extracted : String) :
    ((can_generate u today).2.1 = false →
      generate_from_text u today oracle theme difficulty pastQs session =
        { user := u, session := session, persisted := [], llm_calls := 0,
          theme := none, error := (can_generate u today).2.2 }) ∧
    ((generate_from_file u oracle extracted session).user.daily_generated_count
        = u.daily_generated_count ∧
      (generate_from_file u oracle extracted session).user.last_generated_date
        = u.last_generated_date ∧
      (generate_from_file u oracle extracted session).user.is_premium = u.is_premium) ∧
    ((generate_from_file u oracle extracted session).persisted
        = (generate_from_file u2 oracle extracted session).persisted ∧
      (generate_from_file u oracle extracted session).session
        = (generate_from_file u2 oracle extracted session).session ∧
      (generate_from_file u oracle extracted session).llm_calls
        = (generate_from_file u2 oracle extracted session).llm_calls ∧
      (generate_from_file u oracle extracted session).theme
        = (generate_from_file u2 oracle extracted session).theme ∧
      (generate_from_file u oracle extracted session).error
        = (generate_from_file u2 oracle extracted session).error) := by
  refine ⟨?_, ?_, ?_⟩
  · intro hf
    have hnw := can_generate_false_no_write u today hf
    simp [generate_from_text, hf, hnw]
  · by_cases hc : (generate_and_validate oracle none 10 5).1.length < 10 <;>
      simp [generate_from_file, hc, save_to_session]
  · by_cases hc : (generate_and_validate oracle none 10 5).1.length < 10 <;>
      simp [generate_from_file, hc, save_to_session]

/-- Witness for C8: the quota-limited user's topic-mode request is refused
outright with the limiter's message and no state change. -/
theorem limiter_gate_witness :
    generate_from_text limitUser 5 (fun _ => "x") "Python" "basic" [] [] =
      { user := limitUser, session := [], persisted := [], llm_calls := 0,
        theme := none, error := some "1日に生成できる問題数の上限に達しました。" } := by
  have h := (limiter_gate_and_document_mode limitUser limitUser 5 (fun _ => "x")
    "Python" "basic" [] [] "doc").1 (by decide)
  rw [h]
  decide

/-- A well-formed candidate block (first line of 12 ASCII characters plus
four option lines). -/
def okBlock (i : Nat) : String :=
  "question " ++ toString i ++ "00\n(A) a\n(B) b\n(C) c\n(D) d"

/-- A completion response carrying 10 well-formed candidate blocks. -/
def okResp : String := String.intercalate "\n\n" ((List.range 10).map (fun i => okBlock i))

set_option maxRecDepth 4000 in
/-- End-to-end sanity check of the generation pipeline on a concrete
successful run: one completion call, no error, ten questions numbered 1–10
persisted for the topic, `generate_count` increased by 10 and the daily
counter untouched for the premium user. -/
theorem generation_success_sanity :
    (generate_from_text premiumU 0 (fun _ => okResp) "Python" "basic" [] []).llm_calls = 1 ∧
    (generate_from_text premiumU 0 (fun _ => okResp) "Python" "basic" [] []).error = none ∧
    (generate_from_text premiumU 0 (fun _ => okResp) "Python" "basic" [] []).persisted.map
        (fun q => q.question_number) = [1, 2, 3, 4, 5, 6, 7, 8, 9, 10] ∧
    (generate_from_text premiumU 0 (fun _ => okResp) "Python" "basic" [] []).user.generate_count
        = 10 ∧
    ((generate_from_text premiumU 0 (fun _ => okResp) "Python" "basic" [] []).user).daily_generated_count = 0 := by
  refine ⟨by decide, by decide, by decide, by decide, by decide⟩

end RemAInd
